import Mathlib

/-!
Verification of the calipso unified-calendar core against its specification.

The definitions below are a shallow embedding of the JavaScript/TypeScript
source:

* `detectConflicts` embeds the pairwise interval-overlap conflict detector
  from the storage module (`src/unnamed/part_000`, `detectConflicts`).
* the ICS parser functions (`extractEvents`, `parseProperties`,
  `unfoldLines`, `parseIcsDate`, `parseEvent`, `parseIcsText`,
  `unescapeIcsText`, `generateId`) embed the iCalendar parser from the same
  module.
* `startScan`, `runScan` embed the scan controller of
  `src/Chrome/unified-calendar/src/background/service-worker.ts`.
* `classifyEmailHeuristic`, `extractTime`, `buildEntry`, `processEmail`
  embed the email-classification pipeline of the same file.

Machine integers, `Date` values and random identifiers are made explicit:
instants are `Int` epoch milliseconds (an invalid JS `Date` is `none` in
`Option Int`), the ambient timezone offset is an explicit `tz : Int`
parameter (milliseconds; the model assumes a fixed offset, i.e. no DST
transition inside the ranges considered), and `Math.random` is an explicit
stream `Nat → Fin 16` of hex digits together with a cursor.  Regular
expression matches that the pipeline consumes are passed in as explicit
match-result data, each field documented with the source regex it stands
for; everything downstream of a match is computed exactly as the source
does.
-/

/-! ## Conflict detector (storage module, `detectConflicts`) -/

/-- A calendar entry as seen by the conflict detector: its `id` and the two
instants `new Date(e.startTime)` / `new Date(e.endTime)` (epoch ms). -/
structure CEntry where
  id : String
  startTime : Int
  endTime : Int
deriving DecidableEq

/-- The JS `Map` of entry id to conflict list, modelled as a total function
that returns `[]` for an absent key (the source lazily initialises a key
with `[]` before pushing to it, so membership is unaffected). -/
def ConflictMap : Type := String → List String

/-- The empty conflict map. -/
def emptyConflicts : ConflictMap := fun _ => []

/-- `conflicts.get(k).push(v)` on the lazily-initialised map. -/
def addConflict (m : ConflictMap) (k v : String) : ConflictMap :=
  fun x => if x = k then m k ++ [v] else m x

/-- The body of the overlap branch: push `b.id` onto `a`'s list, then
`a.id` onto `b`'s list. -/
def recordPair (m : ConflictMap) (a b : CEntry) : ConflictMap :=
  addConflict (addConflict m a.id b.id) b.id a.id

/-- The overlap test `aStart < bEnd && aEnd > bStart`. -/
def overlaps (a b : CEntry) : Bool :=
  decide (a.startTime < b.endTime) && decide (a.endTime > b.startTime)

/-- The ordered pairs `(entries[i], entries[j])` with `i < j`, in the
iteration order of the source's nested loops. -/
def pairsOf : List CEntry → List (CEntry × CEntry)
  | [] => []
  | e :: es => es.map (fun f => (e, f)) ++ pairsOf es

/-- One iteration of the inner loop body. -/
def conflictStep (m : ConflictMap) (p : CEntry × CEntry) : ConflictMap :=
  if overlaps p.1 p.2 then recordPair m p.1 p.2 else m

/-- `detectConflicts(entries)`: fold the loop body over every `i < j`
pair. -/
def detectConflicts (entries : List CEntry) : ConflictMap :=
  (pairsOf entries).foldl conflictStep emptyConflicts

theorem overlaps_iff {a b : CEntry} :
    overlaps a b = true ↔ (a.startTime < b.endTime ∧ a.endTime > b.startTime) := by
  simp [overlaps]

theorem mem_addConflict {m : ConflictMap} {k v x y : String} :
    y ∈ addConflict m k v x ↔ y ∈ m x ∨ (x = k ∧ y = v) := by
  unfold addConflict
  by_cases h : x = k
  · subst h; simp
  · simp [h]

theorem mem_recordPair {m : ConflictMap} {a b : CEntry} {x y : String} :
    y ∈ recordPair m a b x ↔
      y ∈ m x ∨ (x = a.id ∧ y = b.id) ∨ (x = b.id ∧ y = a.id) := by
  unfold recordPair
  rw [mem_addConflict, mem_addConflict]
  tauto

theorem mem_foldl_conflictStep (ps : List (CEntry × CEntry)) (m : ConflictMap)
    (x y : String) :
    y ∈ (ps.foldl conflictStep m) x ↔
      y ∈ m x ∨ ∃ p ∈ ps, overlaps p.1 p.2 = true ∧
        ((x = p.1.id ∧ y = p.2.id) ∨ (x = p.2.id ∧ y = p.1.id)) := by
  induction ps generalizing m with
  | nil => simp
  | cons p ps ih =>
    simp only [List.foldl_cons]
    rw [ih]
    unfold conflictStep
    by_cases h : overlaps p.1 p.2 = true
    · rw [if_pos h, mem_recordPair]
      simp only [List.mem_cons]
      constructor
      · rintro ((hm | hc | hc) | ⟨q, hq, hov, hc⟩)
        · exact Or.inl hm
        · exact Or.inr ⟨p, Or.inl rfl, h, Or.inl hc⟩
        · exact Or.inr ⟨p, Or.inl rfl, h, Or.inr hc⟩
        · exact Or.inr ⟨q, Or.inr hq, hov, hc⟩
      · rintro (hm | ⟨q, (rfl | hq), hov, hc⟩)
        · exact Or.inl (Or.inl hm)
        · exact Or.inl (by tauto)
        · exact Or.inr ⟨q, hq, hov, hc⟩
    · rw [if_neg h]
      simp only [List.mem_cons]
      constructor
      · rintro (hm | ⟨q, hq, hov, hc⟩)
        · exact Or.inl hm
        · exact Or.inr ⟨q, Or.inr hq, hov, hc⟩
      · rintro (hm | ⟨q, (rfl | hq), hov, hc⟩)
        · exact Or.inl hm
        · exact absurd hov h
        · exact Or.inr ⟨q, hq, hov, hc⟩

theorem mem_of_mem_pairsOf {l : List CEntry} {p : CEntry × CEntry}
    (h : p ∈ pairsOf l) : p.1 ∈ l ∧ p.2 ∈ l := by
  induction l with
  | nil => simp [pairsOf] at h
  | cons e es ih =>
    simp only [pairsOf, List.mem_append, List.mem_map] at h
    rcases h with ⟨f, hf, rfl⟩ | h
    · exact ⟨List.mem_cons_self _ _, List.mem_cons_of_mem _ hf⟩
    · exact ⟨List.mem_cons_of_mem _ (ih h).1, List.mem_cons_of_mem _ (ih h).2⟩

theorem pairsOf_mem_or {l : List CEntry} {a b : CEntry}
    (ha : a ∈ l) (hb : b ∈ l) (hne : a ≠ b) :
    (a, b) ∈ pairsOf l ∨ (b, a) ∈ pairsOf l := by
  induction l with
  | nil => cases ha
  | cons e es ih =>
    rcases List.mem_cons.mp ha with rfl | ha'
    · have hb' : b ∈ es := by
        rcases List.mem_cons.mp hb with rfl | h
        · exact absurd rfl hne
        · exact h
      exact Or.inl (by
        simp only [pairsOf, List.mem_append, List.mem_map]
        exact Or.inl ⟨b, hb', rfl⟩)
    · rcases List.mem_cons.mp hb with rfl | hb'
      · exact Or.inr (by
          simp only [pairsOf, List.mem_append, List.mem_map]
          exact Or.inl ⟨a, ha', rfl⟩)
      · rcases ih ha' hb' with h | h
        · exact Or.inl (by
            simp only [pairsOf, List.mem_append]
            exact Or.inr h)
        · exact Or.inr (by
            simp only [pairsOf, List.mem_append]
            exact Or.inr h)

theorem not_mem_pairsOf_diag {l : List CEntry} (hnd : l.Nodup) (a : CEntry) :
    (a, a) ∉ pairsOf l := by
  induction l with
  | nil => simp [pairsOf]
  | cons e es ih =>
    intro h
    simp only [pairsOf, List.mem_append, List.mem_map, Prod.mk.injEq] at h
    rcases h with ⟨f, hf, he, hfa⟩ | h
    · subst he; subst hfa
      exact (List.nodup_cons.mp hnd).1 hf
    · exact ih (List.nodup_cons.mp hnd).2 h

theorem centry_id_inj {l : List CEntry} (hnd : (l.map CEntry.id).Nodup)
    {a b : CEntry} (ha : a ∈ l) (hb : b ∈ l) (hid : a.id = b.id) : a = b :=
  List.inj_on_of_nodup_map hnd ha hb hid

/-- C1: for every input list of entries, the map returned by
`detectConflicts` is a symmetric closure: for all ids `x`, `y`, the list
for `x` contains `y` exactly when the list for `y` contains `x` (in
particular, entry A's conflict list contains entry B's id iff B's conflict
list contains A's id). -/
theorem detectConflicts_symm (entries : List CEntry) (x y : String) :
    y ∈ detectConflicts entries x ↔ x ∈ detectConflicts entries y := by
  unfold detectConflicts
  rw [mem_foldl_conflictStep, mem_foldl_conflictStep]
  simp only [emptyConflicts, List.not_mem_nil, false_or]
  constructor <;>
    · rintro ⟨p, hp, hov, hc⟩
      exact ⟨p, hp, hov, by tauto⟩

/-- C2 (amended): for a list of entries with pairwise-distinct ids and any
two distinct entries A and B in it, `detectConflicts` records the pair as
conflicting exactly when `A.start < B.end` and `A.end > B.start`. -/
theorem detectConflicts_mem_iff_overlap (l : List CEntry) (A B : CEntry)
    (hnd : (l.map CEntry.id).Nodup) (hA : A ∈ l) (hB : B ∈ l) (hne : A ≠ B) :
    B.id ∈ detectConflicts l A.id ↔
      (A.startTime < B.endTime ∧ A.endTime > B.startTime) := by
  unfold detectConflicts
  rw [mem_foldl_conflictStep]
  simp only [emptyConflicts, List.not_mem_nil, false_or]
  constructor
  · rintro ⟨p, hp, hov, hc⟩
    obtain ⟨h1, h2⟩ := mem_of_mem_pairsOf hp
    rcases hc with ⟨hpa, hpb⟩ | ⟨hpa, hpb⟩
    · have e1 : p.1 = A := centry_id_inj hnd h1 hA hpa.symm
      have e2 : p.2 = B := centry_id_inj hnd h2 hB hpb.symm
      rw [e1, e2] at hov
      exact overlaps_iff.mp hov
    · have e1 : p.2 = A := centry_id_inj hnd h2 hA hpa.symm
      have e2 : p.1 = B := centry_id_inj hnd h1 hB hpb.symm
      rw [e1, e2] at hov
      have := overlaps_iff.mp hov
      exact ⟨by linarith [this.2], by linarith [this.1]⟩
  · rintro ⟨h1, h2⟩
    rcases pairsOf_mem_or hA hB hne with hp | hp
    · exact ⟨(A, B), hp, overlaps_iff.mpr ⟨h1, h2⟩, Or.inl ⟨rfl, rfl⟩⟩
    · refine ⟨(B, A), hp, overlaps_iff.mpr ⟨by linarith, by linarith⟩,
        Or.inr ⟨rfl, rfl⟩⟩

/-- C2 (counterexample to the unrestricted claim): in a list where two
different entries share an id, `detectConflicts` reports the pair
(⟨"a",0,10⟩, ⟨"b",20,30⟩) as conflicting in both directions even though
their intervals are disjoint (`10 ≤ 20`): the membership came from the
third entry ⟨"b",5,15⟩, which reuses id "b". -/
theorem detectConflicts_mem_iff_overlap_cex :
    (CEntry.id ⟨"b", 20, 30⟩ ∈
        detectConflicts [⟨"a", 0, 10⟩, ⟨"b", 20, 30⟩, ⟨"b", 5, 15⟩]
          (CEntry.id ⟨"a", 0, 10⟩) ∧
      CEntry.id ⟨"a", 0, 10⟩ ∈
        detectConflicts [⟨"a", 0, 10⟩, ⟨"b", 20, 30⟩, ⟨"b", 5, 15⟩]
          (CEntry.id ⟨"b", 20, 30⟩)) ∧
    ¬((CEntry.startTime ⟨"a", 0, 10⟩ < CEntry.endTime ⟨"b", 20, 30⟩ ∧
        CEntry.endTime ⟨"a", 0, 10⟩ > CEntry.startTime ⟨"b", 20, 30⟩) ∨
      (CEntry.startTime ⟨"b", 20, 30⟩ < CEntry.endTime ⟨"a", 0, 10⟩ ∧
        CEntry.endTime ⟨"b", 20, 30⟩ > CEntry.startTime ⟨"a", 0, 10⟩)) := by
  decide

/-- C2 (witness): the spec's scenario.  With ids distinct, 10:00-10:45 and
10:30-11:00 (epoch ms on one day) are recorded as conflicting, and the
back-to-back pair 10:00-10:45 and 10:45-11:15 is not. -/
theorem detectConflicts_mem_iff_overlap_witness :
    (CEntry.id ⟨"B", 37800000, 39600000⟩ ∈
        detectConflicts
          [⟨"A", 36000000, 38700000⟩, ⟨"B", 37800000, 39600000⟩,
            ⟨"C", 38700000, 40500000⟩]
          (CEntry.id ⟨"A", 36000000, 38700000⟩)) ∧
    (CEntry.id ⟨"C", 38700000, 40500000⟩ ∉
        detectConflicts
          [⟨"A", 36000000, 38700000⟩, ⟨"B", 37800000, 39600000⟩,
            ⟨"C", 38700000, 40500000⟩]
          (CEntry.id ⟨"A", 36000000, 38700000⟩)) := by
  constructor
  · exact (detectConflicts_mem_iff_overlap
      [⟨"A", 36000000, 38700000⟩, ⟨"B", 37800000, 39600000⟩,
        ⟨"C", 38700000, 40500000⟩]
      ⟨"A", 36000000, 38700000⟩ ⟨"B", 37800000, 39600000⟩
      (by decide) (by decide) (by decide) (by decide)).mpr (by decide)
  · intro h
    have := (detectConflicts_mem_iff_overlap
      [⟨"A", 36000000, 38700000⟩, ⟨"B", 37800000, 39600000⟩,
        ⟨"C", 38700000, 40500000⟩]
      ⟨"A", 36000000, 38700000⟩ ⟨"C", 38700000, 40500000⟩
      (by decide) (by decide) (by decide) (by decide)).mp h
    exact absurd this (by decide)

/-- C10 (amended): for a list of entries with pairwise-distinct ids, no
entry's id ever appears in its own conflict list: the loop only compares
distinct indices `i < j`. -/
theorem detectConflicts_not_self (l : List CEntry)
    (hnd : (l.map CEntry.id).Nodup) (A : CEntry) (hA : A ∈ l) :
    A.id ∉ detectConflicts l A.id := by
  unfold detectConflicts
  rw [mem_foldl_conflictStep]
  simp only [emptyConflicts, List.not_mem_nil, false_or]
  rintro ⟨p, hp, _, hc⟩
  obtain ⟨h1, h2⟩ := mem_of_mem_pairsOf hp
  have e1 : p.1 = A := by
    rcases hc with ⟨hpa, _⟩ | ⟨_, hpb⟩
    · exact centry_id_inj hnd h1 hA hpa.symm
    · exact centry_id_inj hnd h1 hA hpb.symm
  have e2 : p.2 = A := by
    rcases hc with ⟨_, hpb⟩ | ⟨hpa, _⟩
    · exact centry_id_inj hnd h2 hA hpb.symm
    · exact centry_id_inj hnd h2 hA hpa.symm
  have : (A, A) ∈ pairsOf l := by
    have hpp : p = (A, A) := Prod.ext e1 e2
    rw [← hpp]; exact hp
  exact not_mem_pairsOf_diag (List.Nodup.of_map _ hnd) A this

/-- C10 (counterexample to the unrestricted claim): if the input list holds
two overlapping entries that share the id "x", that id lands in its own
conflict list. -/
theorem detectConflicts_not_self_cex :
    CEntry.id ⟨"x", 0, 10⟩ ∈
      detectConflicts [⟨"x", 0, 10⟩, ⟨"x", 5, 15⟩] (CEntry.id ⟨"x", 0, 10⟩) := by
  decide

/-- C10 (witness): with distinct ids "a" and "b", entry "a" is absent from
its own conflict list. -/
theorem detectConflicts_not_self_witness :
    CEntry.id ⟨"a", 0, 10⟩ ∉
      detectConflicts [⟨"a", 0, 10⟩, ⟨"b", 5, 15⟩] (CEntry.id ⟨"a", 0, 10⟩) :=
  detectConflicts_not_self [⟨"a", 0, 10⟩, ⟨"b", 5, 15⟩] (by decide)
    ⟨"a", 0, 10⟩ (by decide)

/-! ## JS string and date primitives

All string manipulation is defined by structural recursion over the
character list `String.data`, mirroring the JS operations on the (ASCII)
inputs this code handles, so that every definition evaluates inside the
kernel. -/

/-- `text.split(c)` on the character level. -/
def splitCh (c : Char) : List Char → List (List Char)
  | [] => [[]]
  | a :: as =>
    match splitCh c as with
    | [] => [[a]]
    | h :: t => if a = c then [] :: h :: t else (a :: h) :: t

/-- Does `s` start with `pat`? (`String.prototype.startsWith`). -/
def startsWithCh : List Char → List Char → Bool
  | [], _ => true
  | _ :: _, [] => false
  | p :: ps, a :: as => p = a && startsWithCh ps as

/-- Does `l` end with the character `c`? -/
def endsWithChar (c : Char) (l : List Char) : Bool :=
  match l.getLast? with
  | some a => a = c
  | none => false

/-- Does `l` contain `pat` as a contiguous substring?
(`String.prototype.includes`). -/
def containsCh (pat : List Char) : List Char → Bool
  | [] => pat.isEmpty
  | a :: as => startsWithCh pat (a :: as) || containsCh pat as

/-- `s.replace(pat, repl)` with a global flag: scan left to right, skip
past each match, never rescan the replacement.  `fuel` bounds the scan (the
caller passes the string length). -/
def replaceAllCh (pat repl : List Char) : Nat → List Char → List Char
  | _, [] => []
  | 0, l => l
  | Nat.succ fuel, a :: as =>
    if startsWithCh pat (a :: as) then
      repl ++ replaceAllCh pat repl fuel (List.drop pat.length (a :: as))
    else a :: replaceAllCh pat repl fuel as

/-- `s.replace(pat, repl)` with a global flag, on strings. -/
def replaceAllStr (pat repl s : String) : String :=
  String.mk (replaceAllCh pat.data repl.data s.data.length s.data)

/-- `s.includes(pat)` on strings. -/
def strContains (s pat : String) : Bool :=
  containsCh pat.data s.data

/-- The numeric value of a list of decimal digits. -/
def digitsToNat : List Char → Nat :=
  List.foldl (fun n c => n * 10 + (c.toNat - 48)) 0

/-- `parseInt(s)` on the substrings this code feeds it (leading decimal
digits, possibly followed by other text); `none` models `NaN`. -/
def parseIntPfx (s : String) : Option Int :=
  let ds := s.data.takeWhile Char.isDigit
  if ds.isEmpty then none else some (Int.ofNat (digitsToNat ds))

/-- `s.substring(n)` / drop the first `n` characters. -/
def strDrop (s : String) (n : Nat) : String := String.mk (s.data.drop n)

/-- Take the first `n` characters. -/
def strTake (s : String) (n : Nat) : String := String.mk (s.data.take n)

/-- `c.toLowerCase()` for the ASCII range. -/
def toLowerStr (s : String) : String := String.mk (s.data.map Char.toLower)

/-- Break a character list at the first occurrence of `c` (the JS
`indexOf`), returning the parts before and after it. -/
def breakAtChar (c : Char) : List Char → Option (List Char × List Char)
  | [] => none
  | a :: as =>
    if a = c then some ([], as)
    else (breakAtChar c as).map (fun p => (a :: p.1, p.2))

/-- Drop one trailing carriage return, so that splitting on a newline
character models the JS `split(/\r?\n/)`. -/
def stripCR (s : String) : String :=
  if endsWithChar '\r' s.data then String.mk s.data.dropLast else s

/-- `text.split(/\r?\n/)`. -/
def splitLines (s : String) : List String :=
  (splitCh '\n' s.data).map (fun l => stripCR (String.mk l))

/-- `s.replace(c, '')` for a single-character pattern without the global
flag: JS removes only the first occurrence. -/
def removeFirstChar (c : Char) (s : String) : String :=
  match breakAtChar c s.data with
  | none => s
  | some p => String.mk (p.1 ++ p.2)

/-- Days between 1970-01-01 and the civil date `y-m-d` (proleptic
Gregorian, `m` in 1..12, `d` unrestricted). -/
def daysFromCivil (y m d : Int) : Int :=
  let y2 := if m ≤ 2 then y - 1 else y
  let era := y2.fdiv 400
  let yoe := y2 - era * 400
  let mp := (m + 9).emod 12
  let doy := (153 * mp + 2).fdiv 5 + d - 1
  let doe := yoe * 365 + yoe.fdiv 4 - yoe.fdiv 100 + doy
  era * 146097 + doe - 719468

/-- The JS two-digit-year rule of the `Date` constructor and `Date.UTC`:
years 0..99 denote 1900..1999. -/
def jsYearAdj (y : Int) : Int := if 0 ≤ y ∧ y ≤ 99 then y + 1900 else y

/-- `Date.UTC(y, mo0, d, h, mi, sec)` in epoch milliseconds, including the
field normalisation JS performs (month overflow rolls the year, day and
time fields are free offsets). -/
def jsDateMs (y mo0 d h mi sec : Int) : Int :=
  let ya := jsYearAdj y
  let ry := ya + mo0.fdiv 12
  let rm := mo0.emod 12
  daysFromCivil ry (rm + 1) d * 86400000 + h * 3600000 + mi * 60000 + sec * 1000

/-- `new Date(y, mo0, d, h, mi, sec)` — a local-time construction; `tz` is
the fixed local UTC offset in milliseconds. -/
def jsLocalMs (tz y mo0 d h mi sec : Int) : Int :=
  jsDateMs y mo0 d h mi sec - tz

/-- `x || dflt` for a possibly-absent string: `undefined` and the empty
string are falsy. -/
def jsOrStr (o : Option String) (dflt : String) : String :=
  match o with
  | some s => if s = "" then dflt else s
  | none => dflt

/-! ## ICS parser (storage module: `extractEvents`, `parseProperties`,
`unfoldLines`, `parseIcsDate`, `parseEvent`, `parseIcsText`) -/

/-- `unfoldLines(lines)`: a line starting with a space or tab is appended,
minus its first character, to the previous logical line (and dropped when
there is no previous line). -/
def unfoldLines (lines : List String) : List String :=
  lines.foldl (fun result line =>
    if (match line.data with
        | c :: _ => c = ' ' || c = '\t'
        | [] => false) then
      match result.getLast? with
      | some last => result.dropLast ++ [last ++ strDrop line 1]
      | none => result
    else result ++ [line]) []

/-- One `KEY[;params]:value` line: split at the first colon, then strip
the key at its first semicolon. -/
def parsePropLine (line : String) : Option (String × String) :=
  match breakAtChar ':' line.data with
  | none => none
  | some kv =>
    let key := match breakAtChar ';' kv.1 with
      | none => kv.1
      | some k2 => k2.1
    some (String.mk key, String.mk kv.2)

/-- The flat property map of an event block; a later line for the same key
overwrites an earlier one, an absent key is `none`. -/
def parseProperties (text : String) : String → Option String :=
  (unfoldLines (splitLines text)).foldl (fun props line =>
    match parsePropLine line with
    | none => props
    | some kv => fun x => if x = kv.1 then some kv.2 else props x)
    (fun _ => none)

/-- `extractEvents(icsText)`: the text of every `BEGIN:VEVENT` /
`END:VEVENT` block, lines re-joined with a newline. -/
def extractEvents (icsText : String) : List String :=
  (((splitLines icsText).foldl (fun st line =>
    if line = "BEGIN:VEVENT" then (true, [], st.2.2)
    else if line = "END:VEVENT" then
      (false, st.2.1, st.2.2 ++ [String.intercalate "\n" st.2.1])
    else if st.1 then (st.1, st.2.1 ++ [line], st.2.2)
    else st) ((false : Bool), ([] : List String), ([] : List String))).2.2)

/-- `parseIcsDate(dateStr)`: date-only (`YYYYMMDD`, local midnight), local
timestamp (`YYYYMMDDTHHMMSS`), or UTC timestamp (trailing `Z`); `none`
models an invalid `Date`. -/
def parseIcsDate (tz : Int) (dateStr : String) : Option Int :=
  let s := if startsWithCh "VALUE=DATE:".data dateStr.data
    then strDrop dateStr 11 else dateStr
  if s.data.length = 8 then
    match parseIntPfx (strTake s 4), parseIntPfx (strTake (strDrop s 4) 2),
        parseIntPfx (strTake (strDrop s 6) 2) with
    | some y, some mo, some d => some (jsLocalMs tz y (mo - 1) d 0 0 0)
    | _, _, _ => none
  else
    let isUtc := endsWithChar 'Z' s.data
    let clean := removeFirstChar 'T' (removeFirstChar 'Z' s)
    match parseIntPfx (strTake clean 4), parseIntPfx (strTake (strDrop clean 4) 2),
        parseIntPfx (strTake (strDrop clean 6) 2) with
    | some y, some mo, some d =>
      let h := (parseIntPfx (strTake (strDrop clean 8) 2)).getD 0
      let mi := (parseIntPfx (strTake (strDrop clean 10) 2)).getD 0
      let sec := (parseIntPfx (strTake (strDrop clean 12) 2)).getD 0
      if isUtc then some (jsDateMs y (mo - 1) d h mi sec)
      else some (jsLocalMs tz y (mo - 1) d h mi sec)
    | _, _, _ => none

/-- `unescapeIcsText(text)`: the four global backslash-unescapes, in the
source's order. -/
def unescapeIcsText (text : String) : String :=
  replaceAllStr "\\\\" "\\"
    (replaceAllStr "\\;" ";"
      (replaceAllStr "\\," ","
        (replaceAllStr "\\n" "\n" text)))

/-- One random hex digit. -/
def hexChar (i : Fin 16) : Char :=
  if i.val < 10 then Char.ofNat (48 + i.val) else Char.ofNat (87 + i.val)

/-- `generateId()`: `'xxxx-xxxx-xxxx'` with each `x` replaced by a random
hex digit.  `g` is the explicit stream of `Math.floor(Math.random()*16)`
draws and `k` the cursor; returns the id and the advanced cursor. -/
def generateId (g : Nat → Fin 16) (k : Nat) : String × Nat :=
  (String.mk [hexChar (g k), hexChar (g (k + 1)), hexChar (g (k + 2)),
    hexChar (g (k + 3)), '-', hexChar (g (k + 4)), hexChar (g (k + 5)),
    hexChar (g (k + 6)), hexChar (g (k + 7)), '-', hexChar (g (k + 8)),
    hexChar (g (k + 9)), hexChar (g (k + 10)), hexChar (g (k + 11))],
   k + 12)

/-- A parsed calendar entry (`createCalendarEntry` of the types module with
the fields `parseEvent` passes; instants kept as epoch ms). -/
structure ICalEntry where
  id : String
  mailboxId : String
  title : String
  startTime : Int
  endTime : Int
  status : String
  calendarName : String
  eventId : Option String
  conflicts : List String
deriving DecidableEq

/-- The end instant: `dtend ? parseIcsDate(dtend) : new
Date(startTime.getTime() + 60*60*1000)` (an empty `DTEND` value is
falsy). -/
def icsEndTime (tz : Int) (startTime : Option Int) (dtend : Option String) :
    Option Int :=
  match dtend with
  | some de =>
    if de = "" then startTime.map (· + 3600000) else parseIcsDate tz de
  | none => startTime.map (· + 3600000)

/-- The 7-day staleness test `endTime < cutoff` where `cutoff = now - 7
days`; an invalid end `Date` compares `NaN < cutoff`, which is false. -/
def icsStale (now : Int) (endTime : Option Int) : Bool :=
  match endTime with
  | some t => decide (t < now - 604800000)
  | none => false

/-- The id `cal-<mailboxId>-<uid || generateId()>` (an empty `UID` value is
falsy), together with the advanced random cursor. -/
def icsId (g : Nat → Fin 16) (k : Nat) (mailboxId : String)
    (uid : Option String) : String × Nat :=
  match uid with
  | some u =>
    if u = "" then
      ("cal-" ++ mailboxId ++ "-" ++ (generateId g k).1, (generateId g k).2)
    else ("cal-" ++ mailboxId ++ "-" ++ u, k)
  | none =>
    ("cal-" ++ mailboxId ++ "-" ++ (generateId g k).1, (generateId g k).2)

/-- `parseEvent(eventText, mailboxId, calendarName)`.  `now` is the call
instant (for the 7-day staleness cutoff), `g`/`k` the random stream and
cursor.  Returns the entry (or `none`) and the advanced cursor.  An
invalid start or end `Date` makes `toISOString()` throw inside
`createCalendarEntry`; the caller catches it and skips the event, which
this model renders as a `none` result (after the cursor was advanced, as
in the source). -/
def parseEvent (tz now : Int) (g : Nat → Fin 16) (k : Nat)
    (eventText mailboxId calendarName : String) : Option ICalEntry × Nat :=
  match parseProperties eventText "DTSTART" with
  | none => (none, k)
  | some ds =>
    if ds = "" then (none, k)
    else
      let startTime := parseIcsDate tz ds
      let endTime := icsEndTime tz startTime (parseProperties eventText "DTEND")
      if icsStale now endTime then (none, k)
      else
        let idk := icsId g k mailboxId (parseProperties eventText "UID")
        match startTime, endTime with
        | some st, some et =>
          (some { id := idk.1,
                  mailboxId := mailboxId,
                  title := unescapeIcsText
                    (jsOrStr (parseProperties eventText "SUMMARY")
                      "Untitled Event"),
                  startTime := st, endTime := et,
                  status := "confirmed",
                  calendarName := calendarName,
                  eventId := parseProperties eventText "UID",
                  conflicts := [] }, idk.2)
        | _, _ => (none, idk.2)

/-- The loop of `parseIcsText`, threading the random cursor. -/
def parseIcsTextAux (tz now : Int) (g : Nat → Fin 16)
    (mailboxId calendarName : String) : List String → Nat → List ICalEntry
  | [], _ => []
  | ev :: rest, k =>
    match parseEvent tz now g k ev mailboxId calendarName with
    | (some e, k2) => e :: parseIcsTextAux tz now g mailboxId calendarName rest k2
    | (none, k2) => parseIcsTextAux tz now g mailboxId calendarName rest k2

/-- `parseIcsText(icsText, mailboxId, calendarName)`. -/
def parseIcsText (tz now : Int) (g : Nat → Fin 16)
    (icsText mailboxId calendarName : String) : List ICalEntry :=
  parseIcsTextAux tz now g mailboxId calendarName (extractEvents icsText) 0

/-- C9: missing start-instant property (`DTSTART`) drops the candidate
(`parseEvent` returns null), and in any entry produced from a block with
no end-instant property (`DTEND`), the end instant is exactly the start
instant plus one hour (3600000 ms). -/
theorem parseEvent_start_required_end_default (tz now : Int)
    (g : Nat → Fin 16) (k : Nat) (eventText mailboxId calendarName : String) :
    (parseProperties eventText "DTSTART" = none →
      (parseEvent tz now g k eventText mailboxId calendarName).1 = none) ∧
    (∀ en, (parseEvent tz now g k eventText mailboxId calendarName).1 = some en →
      parseProperties eventText "DTEND" = none →
      en.endTime = en.startTime + 3600000) := by
  constructor
  · intro h
    unfold parseEvent
    rw [h]
  · intro en hen hde
    unfold parseEvent at hen
    cases hds : parseProperties eventText "DTSTART" with
    | none =>
      rw [hds] at hen
      exact Option.noConfusion hen
    | some ds =>
      rw [hds, hde] at hen
      dsimp only at hen
      by_cases he : ds = ""
      · rw [if_pos he] at hen
        exact Option.noConfusion hen
      · rw [if_neg he] at hen
        cases hst : parseIcsDate tz ds with
        | none =>
          rw [hst] at hen
          exact Option.noConfusion hen
        | some st =>
          rw [hst] at hen
          have het : icsEndTime tz (some st) none = some (st + 3600000) := rfl
          rw [het] at hen
          split at hen
          · exact Option.noConfusion hen
          · have h2 := Option.some.inj hen
            rw [← h2]

/-- The entry produced from `UID:u\nDTSTART:20270108T100000` (no `DTEND`). -/
def c9Entry : ICalEntry :=
  { id := "cal-mb-u", mailboxId := "mb", title := "Untitled Event",
    startTime := 1799402400000, endTime := 1799406000000,
    status := "confirmed", calendarName := "c", eventId := some "u",
    conflicts := [] }

/-- C9 (witness): an event text without `DTSTART` parses to null, and the
concrete no-`DTEND` event gets end = start + one hour. -/
theorem parseEvent_start_required_end_default_witness :
    (parseEvent 0 0 (fun _ => 0) 0 "SUMMARY:No start" "mb" "c").1 = none ∧
    (parseEvent 0 0 (fun _ => 0) 0 "UID:u\nDTSTART:20270108T100000" "mb" "c").1 =
      some c9Entry ∧
    c9Entry.endTime = c9Entry.startTime + 3600000 :=
  ⟨(parseEvent_start_required_end_default 0 0 (fun _ => 0) 0 "SUMMARY:No start"
      "mb" "c").1 (by decide),
   by decide,
   (parseEvent_start_required_end_default 0 0 (fun _ => 0) 0
      "UID:u\nDTSTART:20270108T100000" "mb" "c").2 c9Entry (by decide)
      (by decide)⟩

theorem parseEvent_uid_stable (tz now : Int) (g g2 : Nat → Fin 16)
    (k k2 : Nat) (ev mb cal : String) (u : String)
    (hu : parseProperties ev "UID" = some u) (hne : u ≠ "") :
    parseEvent tz now g k ev mb cal =
      ((parseEvent tz now g2 k2 ev mb cal).1, k) := by
  unfold parseEvent
  rw [hu]
  cases hds : parseProperties ev "DTSTART" with
  | none => rfl
  | some ds =>
    dsimp only
    by_cases he : ds = ""
    · rw [if_pos he, if_pos he]
    · rw [if_neg he, if_neg he]
      have hid : icsId g k mb (some u) = ("cal-" ++ mb ++ "-" ++ u, k) := by
        unfold icsId
        dsimp only
        rw [if_neg hne]
      have hid2 : icsId g2 k2 mb (some u) = ("cal-" ++ mb ++ "-" ++ u, k2) := by
        unfold icsId
        dsimp only
        rw [if_neg hne]
      rw [hid, hid2]
      split
      · rfl
      · cases hst : parseIcsDate tz ds with
        | none => rfl
        | some st =>
          cases het : icsEndTime tz (some st) (parseProperties ev "DTEND") with
          | none => rfl
          | some et => rfl

theorem parseIcsTextAux_uid_stable (tz now : Int) (g g2 : Nat → Fin 16)
    (mb cal : String) (evs : List String)
    (h : ∀ ev ∈ evs, ∃ u, parseProperties ev "UID" = some u ∧ u ≠ "") :
    ∀ k k2, parseIcsTextAux tz now g mb cal evs k =
      parseIcsTextAux tz now g2 mb cal evs k2 := by
  induction evs with
  | nil => intro k k2; rfl
  | cons ev rest ih =>
    intro k k2
    obtain ⟨u, hu, hne⟩ := h ev (List.mem_cons_self _ _)
    have hrest : ∀ ev2 ∈ rest, ∃ u2, parseProperties ev2 "UID" = some u2 ∧ u2 ≠ "" :=
      fun ev2 hev2 => h ev2 (List.mem_cons_of_mem _ hev2)
    have h1 := parseEvent_uid_stable tz now g g2 k k2 ev mb cal u hu hne
    have h2 := parseEvent_uid_stable tz now g2 g2 k2 k2 ev mb cal u hu hne
    unfold parseIcsTextAux
    rw [h1, h2]
    cases ho : (parseEvent tz now g2 k2 ev mb cal).1 with
    | none => exact ih hrest k k2
    | some e => exact congrArg (e :: ·) (ih hrest k k2)

/-- C6 (amended): when every event block of the feed text carries a
non-empty `UID`, the parse result does not depend on the random stream or
cursor, so re-parsing the same text (at the same instant, for the same
mailbox) yields exactly the same entries and in particular the same set of
identifiers — re-ingestion is idempotent on identity. -/
theorem parseIcsText_deterministic (tz now : Int) (g g2 : Nat → Fin 16)
    (icsText mb cal : String)
    (h : ∀ ev ∈ extractEvents icsText,
      ∃ u, parseProperties ev "UID" = some u ∧ u ≠ "") :
    parseIcsText tz now g icsText mb cal =
      parseIcsText tz now g2 icsText mb cal :=
  parseIcsTextAux_uid_stable tz now g g2 mb cal (extractEvents icsText) h 0 0

/-- C6 (counterexample): a feed whose single event has no `UID` gets a
fresh random identifier on every parse: two parses of the same text (same
mailbox, same call instant) that differ only in the ambient `Math.random`
draws return different identifier sets, so re-ingestion is not idempotent
on identity for every feed text. -/
theorem parseIcsText_idempotent_cex :
    (parseIcsText 0 0 (fun _ => 0)
        "BEGIN:VEVENT\nDTSTART:20270108T100000\nEND:VEVENT" "mb" "c").map
        ICalEntry.id ≠
      (parseIcsText 0 0 (fun _ => 1)
        "BEGIN:VEVENT\nDTSTART:20270108T100000\nEND:VEVENT" "mb" "c").map
        ICalEntry.id := by
  decide

/-- C6 (witness): with a `UID` present the two parses agree exactly. -/
theorem parseIcsText_deterministic_witness :
    parseIcsText 0 0 (fun _ => 0)
        "BEGIN:VEVENT\nUID:ev1\nDTSTART:20270108T100000\nEND:VEVENT" "mb" "c" =
      parseIcsText 0 0 (fun _ => 1)
        "BEGIN:VEVENT\nUID:ev1\nDTSTART:20270108T100000\nEND:VEVENT" "mb" "c" :=
  parseIcsText_deterministic 0 0 (fun _ => 0) (fun _ => 1)
    "BEGIN:VEVENT\nUID:ev1\nDTSTART:20270108T100000\nEND:VEVENT" "mb" "c"
    (by
      intro ev hev
      have hex : extractEvents
          "BEGIN:VEVENT\nUID:ev1\nDTSTART:20270108T100000\nEND:VEVENT" =
          ["UID:ev1\nDTSTART:20270108T100000"] := by decide
      rw [hex, List.mem_singleton] at hev
      subst hev
      exact ⟨"ev1", by decide, by decide⟩)

/-! ## Scan controller (`service-worker.ts`: `startScan`, `runScan`,
`cancelScan`) -/

inductive ScanStatus
  | idle
  | scanning
  | paused
  | cancelled
  | error
  | complete
deriving DecidableEq

structure ScanProgress where
  current : Nat
  total : Nat
  currentItem : String
deriving DecidableEq

/-- The options object passed to `startScan` (only `lookbackDays` is read). -/
structure ScanOptions where
  lookbackDays : Option Int
deriving DecidableEq

/-- The process-wide `currentScan` record. -/
structure ScanState where
  status : ScanStatus
  startTime : Int
  phase : String
  progress : ScanProgress
  options : ScanOptions
  error : Option String
deriving DecidableEq

/-- An account/mailbox as `startScan` sees it. -/
structure Mailbox where
  id : String
  email : String
deriving DecidableEq

/-- The synchronous return value of `startScan`: `{error: msg}` or
`{started: true}`. -/
inductive StartScanResult
  | errorMsg (msg : String)
  | started
deriving DecidableEq

/-- The module-level mutable state `startScan` reads and writes:
`currentScan` and the `scanAborted` flag. -/
structure ScanController where
  currentScan : Option ScanState
  scanAborted : Bool
deriving DecidableEq

/-- `startScan(options)`: reject when a scan is already `scanning`, then
when no mailboxes are configured; otherwise reset the abort flag and
install a fresh `scanning/starting` state (the asynchronous `runScan` body
is modelled separately). -/
def startScan (c : ScanController) (mailboxes : List Mailbox)
    (options : ScanOptions) (now : Int) : StartScanResult × ScanController :=
  if (c.currentScan.map ScanState.status) = some ScanStatus.scanning then
    (StartScanResult.errorMsg "Scan already in progress", c)
  else if mailboxes.isEmpty then
    (StartScanResult.errorMsg "No mailboxes configured", c)
  else
    (StartScanResult.started,
     { currentScan := some
         { status := ScanStatus.scanning, startTime := now,
           phase := "starting",
           progress := { current := 0, total := 0, currentItem := "" },
           options := options, error := none },
       scanAborted := false })

/-- C3: `startScan` called while the current scan state has status
`scanning` returns the already-scanning failure synchronously and leaves
the whole controller state — hence the existing scan's status, phase,
progress, startTime, options and error — unchanged. -/
theorem startScan_while_scanning (c : ScanController) (mbs : List Mailbox)
    (opts : ScanOptions) (now : Int) (s : ScanState)
    (hc : c.currentScan = some s) (hs : s.status = ScanStatus.scanning) :
    startScan c mbs opts now =
      (StartScanResult.errorMsg "Scan already in progress", c) := by
  unfold startScan
  rw [hc]
  dsimp only [Option.map_some']
  rw [hs]
  rw [if_pos rfl]

/-- C3 (witness): a concrete scanning state is left untouched. -/
theorem startScan_while_scanning_witness :
    startScan
        { currentScan := some
            { status := ScanStatus.scanning, startTime := 5,
              phase := "calendar",
              progress := { current := 1, total := 2, currentItem := "x" },
              options := { lookbackDays := some 14 }, error := none },
          scanAborted := false }
        [{ id := "m1", email := "a@b.com" }] { lookbackDays := some 7 } 99 =
      (StartScanResult.errorMsg "Scan already in progress",
       { currentScan := some
           { status := ScanStatus.scanning, startTime := 5,
             phase := "calendar",
             progress := { current := 1, total := 2, currentItem := "x" },
             options := { lookbackDays := some 14 }, error := none },
         scanAborted := false }) :=
  startScan_while_scanning _ _ _ _ _ rfl rfl

/-! ### The `runScan` loop and cooperative cancellation

`runScan` iterates the mailboxes; for each it runs the calendar phase then
the email phase, checking `scanAborted` at the top of the loop and between
the two phases, and checks it once more before the conflict pass.  The
observation points are numbered: check `2*i` before mailbox `i`'s calendar
phase, check `2*i+1` between its phases, and one final check after the
loop.  `cancelAt = some c` models a `cancelScan` call whose flag is first
observed at check `c` (cancelScan also sets the status to `cancelled`
immediately); `none` means no cancellation.  Each phase's net effect on the
store is clear-then-repopulate (`clearEntriesBySource` followed by saving
the entries the phase derives, which are inputs of the model).  The email
phase also polls the flag between items; the model treats a phase as
atomic, which is exact whenever the flag is not first observed mid-phase —
in particular for the boundary cancellation verified here. -/

inductive SourceKind
  | calendar
  | email
deriving DecidableEq

/-- A stored entry as the cancellation model tracks it. -/
structure SEntry where
  id : String
  mailboxId : String
  source : SourceKind
deriving DecidableEq

/-- A mailbox together with the entries its two phases would persist. -/
structure MailboxData where
  id : String
  calendarEntries : List SEntry
  emailEntries : List SEntry
deriving DecidableEq

/-- Is the cancellation flag observed as set at check number `t`? -/
def aborted (cancelAt : Option Nat) (t : Nat) : Bool :=
  match cancelAt with
  | none => false
  | some cp => decide (cp ≤ t)

/-- `storage.clearEntriesBySource(mailboxId, kind)`. -/
def clearBySource (store : List SEntry) (mid : String) (kind : SourceKind) :
    List SEntry :=
  store.filter (fun e => !(decide (e.mailboxId = mid) && decide (e.source = kind)))

/-- Net store effect of `scanCalendar(mailbox)`. -/
def scanCalendarStore (m : MailboxData) (store : List SEntry) : List SEntry :=
  clearBySource store m.id SourceKind.calendar ++ m.calendarEntries

/-- Net store effect of `scanEmails(mailbox, lookbackDays)`. -/
def scanEmailsStore (m : MailboxData) (store : List SEntry) : List SEntry :=
  clearBySource store m.id SourceKind.email ++ m.emailEntries

/-- The mailbox loop of `runScan`, returning the store and the next check
number. -/
def runScanAux (cancelAt : Option Nat) :
    List MailboxData → Nat → List SEntry → List SEntry × Nat
  | [], t, store => (store, t)
  | m :: rest, t, store =>
    if aborted cancelAt t then (store, t)
    else
      let store1 := scanCalendarStore m store
      if aborted cancelAt (t + 1) then (store1, t + 2)
      else runScanAux cancelAt rest (t + 2) (scanEmailsStore m store1)

/-- What a finished scan left behind: the store, the final status, and
whether the conflict-detection pass ran. -/
structure ScanOutcome where
  store : List SEntry
  status : ScanStatus
  conflictsRan : Bool
deriving DecidableEq

/-- `runScan(mailboxes, options)` (fault-free run): after the loop, the
`!scanAborted` check guards the conflict pass and the `complete` status;
when the flag was observed the loop exits early and the status remains the
`cancelled` that `cancelScan` installed. -/
def runScan (cancelAt : Option Nat) (mailboxes : List MailboxData)
    (initStore : List SEntry) : ScanOutcome :=
  let r := runScanAux cancelAt mailboxes 0 initStore
  if aborted cancelAt r.2 then
    { store := r.1, status := ScanStatus.cancelled, conflictsRan := false }
  else
    { store := r.1, status := ScanStatus.complete, conflictsRan := true }

/-- C8: when the cancellation flag is set after account 1's calendar phase
completed but before its email phase begins (first observed at check 1),
account 1's calendar entries remain persisted, no email entries are
produced for it or for any later account, the conflict pass does not run,
and the final status is `cancelled` — not `error` or `complete`. -/
theorem runScan_cancel_between_phases (m : MailboxData)
    (rest : List MailboxData) (initStore : List SEntry) :
    runScan (some 1) (m :: rest) initStore =
      { store := scanCalendarStore m initStore,
        status := ScanStatus.cancelled,
        conflictsRan := false } :=
  rfl

/-! ## Email meeting classifier and scan pipeline (`service-worker.ts`:
`classifyEmailHeuristic` and the per-email body of `scanEmails`)

The regular-expression tests of the source are passed in as explicit
match-result data (each field below names the regex it stands for); the
scoring, thresholds, filters and entry construction downstream of the
matches are computed exactly as the source does.  Substring tests
(`includes`) and lowercasing are computed concretely. -/

/-- The regex outcomes `classifyEmailHeuristic` consumes for one email:
`strongHits` holds, for each of the 19 strong-signal patterns (`mdt|mdts`,
`fw:`, `invit(e|ation)`, `calendar`, `meeting`, `appointment`,
`catch[ -]?up`, `standup`, `zoom|teams|webex|google meet`, `conference`,
`workshop`, `seminar`, `clinic`, `surgery`, `teaching`,
`quality meeting`, `check[ -]?in`, `dphil`, all `\b`-delimited and
case-insensitive), whether it matches the subject and whether it matches
the snippet; `timeInSubject` is the pair of time-of-day patterns on the
subject, `dateInSubject` the date patterns on the subject, `withPerson`
the `with <Capitalized Name>` pattern. -/
structure HeurSignals where
  strongHits : List (Bool × Bool)
  timeInSubject : Bool
  dateInSubject : Bool
  withPerson : Bool
deriving DecidableEq

/-- An email candidate: its text fields plus the regex outcomes above. -/
structure EmailM where
  subject : String
  snippet : String
  fromAddr : String
  signals : HeurSignals
deriving DecidableEq

/-- The transient meeting classification. -/
structure MeetingAnalysis where
  isMeeting : Bool
  title : Option String
  date : Option String
  endDate : Option String
  time : Option String
  duration : Option Int
  confidence : Option String
deriving DecidableEq

/-- Strong signals: +3 for a subject match, else +1 for a snippet match. -/
def strongScore : List (Bool × Bool) → Int
  | [] => 0
  | p :: rest => (if p.1 then 3 else if p.2 then 1 else 0) + strongScore rest

/-- The automated-sender test on the lowercased `from` address. -/
def isPersonalSender (fromLower : String) : Bool :=
  !(strContains fromLower "noreply" || strContains fromLower "no-reply" ||
    strContains fromLower "digest" || strContains fromLower "newsletter" ||
    strContains fromLower "notification" || strContains fromLower "alert")

/-- The heuristic score: strong signals, +2 for a time in the subject, +1
for a date in the subject, +2 for `with <Name>`, −3 for an automated
sender. -/
def heuristicScore (e : EmailM) : Int :=
  strongScore e.signals.strongHits
    + (if e.signals.timeInSubject then 2 else 0)
    + (if e.signals.dateInSubject then 1 else 0)
    + (if e.signals.withPerson then 2 else 0)
    + (if isPersonalSender (toLowerStr e.fromAddr) then 0 else -3)

/-- `classifyEmailHeuristic(email)`: a meeting only at score ≥ 3, with
confidence `high` at score ≥ 5 and `medium` otherwise. -/
def classifyEmailHeuristic (e : EmailM) : Option MeetingAnalysis :=
  if heuristicScore e ≥ 3 then
    some { isMeeting := true, title := some e.subject, date := none,
           endDate := none, time := none, duration := none,
           confidence := some (if heuristicScore e ≥ 5 then "high" else "medium") }
  else none

/-- The newsletter/marketing sender filter of `scanEmails` (on the
lowercased `from`); note `&&` binds tighter than `||` in the last
clause. -/
def isNewsletter (fromLower : String) : Bool :=
  strContains fromLower "noreply" || strContains fromLower "no-reply" ||
  strContains fromLower "newsletter" || strContains fromLower "marketing" ||
  strContains fromLower "info@" || strContains fromLower "hello@" ||
  strContains fromLower "news@" || strContains fromLower "updates@" ||
  strContains fromLower "notifications" || strContains fromLower "@email." ||
  strContains fromLower "@mail." || strContains fromLower "@e." ||
  strContains fromLower "freegle" || strContains fromLower "linkedin" ||
  (strContains fromLower ".com" && !strContains fromLower "gmail.com" &&
    !strContains fromLower "outlook.com")

/-- The non-meeting subject filter of `scanEmails` (on the lowercased
subject). -/
def isSpamSubject (subjectLower : String) : Bool :=
  strContains subjectLower "unsubscribe" ||
  strContains subjectLower "now available" ||
  strContains subjectLower "order confirm" ||
  strContains subjectLower "shipping" ||
  strContains subjectLower "receipt" ||
  strContains subjectLower "password" ||
  strContains subjectLower "security alert" ||
  strContains subjectLower "verify your" ||
  strContains subjectLower "welcome to" ||
  strContains subjectLower "your account"

/-- JS truthiness of a possibly-absent string (`undefined` and `""` are
falsy). -/
def strTruthy (o : Option String) : Bool :=
  match o with
  | some s => decide (s ≠ "")
  | none => false

/-- The capture groups of the time match
`emailText.match(/\b(\d{1,2}):(\d{2})\s*(am|pm)?\b/i) ||
emailText.match(/\b(\d{1,2})\s*(am|pm)\b/i)`: `g1` is the hour digits,
`g2` the second group (minutes, or am/pm for the fallback pattern), `g3`
the optional am/pm group of the first pattern. -/
structure TimeGroups where
  g1 : String
  g2 : Option String
  g3 : Option String
deriving DecidableEq

/-- `timeMatch[2]?.match(/^\d+$/) ? parseInt(timeMatch[2]) : 0` — the
minute value. -/
def tmMinute (tm : TimeGroups) : Int :=
  match tm.g2 with
  | some s2 =>
    if s2 ≠ "" ∧ s2.data.all Char.isDigit then (parseIntPfx s2).getD 0 else 0
  | none => 0

/-- `String(n).padStart(2, '0')` for the 0..99 values this code pads. -/
def pad2 (n : Int) : String :=
  String.mk [Char.ofNat (48 + n.toNat / 10), Char.ofNat (48 + n.toNat % 10)]

/-- The time-extraction step of `scanEmails`: am/pm adjustment, then the
range-and-granularity guard `hour >= 0 && hour <= 23 && minute % 5 === 0`;
the extracted `HH:MM` string, or `none` when the guard fails (a minute
that is not a multiple of 5 silently drops the time). -/
def extractTime (tm : TimeGroups) : Option String :=
  match parseIntPfx tm.g1 with
  | none => none
  | some h0 =>
    let minute := tmMinute tm
    let ampm := toLowerStr (jsOrStr tm.g3 (jsOrStr tm.g2 ""))
    let hour := if ampm = "pm" ∧ h0 < 12 then h0 + 12
      else if ampm = "am" ∧ h0 = 12 then 0 else h0
    if 0 ≤ hour ∧ hour ≤ 23 ∧ minute % 5 = 0 then
      some (pad2 hour ++ ":" ++ pad2 minute)
    else none

/-- A tentative entry persisted by the email phase (the `source` payload of
the record, which merely echoes the email's fields, is not tracked). -/
structure TEntry where
  id : String
  mailboxId : String
  title : String
  startTime : Int
  endTime : Int
  isAllDay : Bool
  status : String
  conflicts : List String
deriving DecidableEq

/-- `Number(s)` on the pieces of a split date/time string (`""` is 0, a
digit string is its value, anything else is `NaN` = `none`). -/
def jsNumber (s : String) : Option Int :=
  if s = "" then some 0
  else if s.data.all Char.isDigit then parseIntPfx s
  else none

/-- `s.split(sep).map(Number)[i]` — `undefined` off the end is `NaN`. -/
def splitPart (s : String) (sep : Char) (i : Nat) : Option Int :=
  match (splitCh sep s.data).get? i with
  | some part => jsNumber (String.mk part)
  | none => none

/-- `new Date(y, mo0, d, h, mi)` with possibly-`NaN` fields: any `NaN`
yields an invalid date (`none`). -/
def jsLocalOpt (tz : Int) (y mo0 d h mi : Option Int) : Option Int :=
  match y, mo0, d, h, mi with
  | some a, some b, some c2, some e2, some f2 => some (jsLocalMs tz a b c2 e2 f2 0)
  | _, _, _, _, _ => none

/-- `meetingInfo.duration || 60` (0 is falsy). -/
def jsOrInt (o : Option Int) (dflt : Int) : Int :=
  match o with
  | some v => if v = 0 then dflt else v
  | none => dflt

/-- The tail of the entry-creation block: the template-title guard, then
the record `{id: email-<mailboxId>-<emailId>, ..., status: 'tentative'}`;
an invalid start or end date makes `toISOString()` throw (the surrounding
try/catch then abandons the mailbox's email loop), so no entry results. -/
def tentativeOf (mailboxId emailId subject : String) (mi : MeetingAnalysis)
    (startT endT : Option Int) (allday : Bool) : Option TEntry :=
  let title := jsOrStr mi.title subject
  if toLowerStr title = "event title" ∨ strContains title "YYYY" then none
  else
    match startT, endT with
    | some st, some et =>
      some { id := "email-" ++ mailboxId ++ "-" ++ emailId,
             mailboxId := mailboxId, title := title,
             startTime := st, endTime := et,
             isAllDay := allday, status := "tentative", conflicts := [] }
    | _, _ => none

/-- The `meetingInfo.time` branch of entry creation: reject the entire
candidate when the minute is not a multiple of 5 (`NaN` also rejects),
else a timed entry of `duration || 60` minutes. -/
def buildEntryTime (tz : Int) (mailboxId emailId subject : String)
    (mi : MeetingAnalysis) (t : String) (y mo0 dd : Option Int) :
    Option TEntry :=
  match splitPart t ':' 1 with
  | none => none
  | some minute =>
    if minute % 5 ≠ 0 then none
    else
      let startT := jsLocalOpt tz y mo0 dd (splitPart t ':' 0) (some minute)
      let dur := jsOrInt mi.duration 60
      tentativeOf mailboxId emailId subject mi startT
        (startT.map (· + dur * 60000)) false

/-- The date-only branch: an all-day entry spanning 09:00–10:00 of the
date. -/
def buildEntryAllday (tz : Int) (mailboxId emailId subject : String)
    (mi : MeetingAnalysis) (y mo0 dd : Option Int) : Option TEntry :=
  tentativeOf mailboxId emailId subject mi
    (jsLocalOpt tz y mo0 dd (some 9) (some 0))
    (jsLocalOpt tz y mo0 dd (some 10) (some 0)) true

/-- The no-time branches: a multi-day all-day entry (00:00 of the start
date to 23:59 of the distinct end date) when `endDate` is truthy and
differs from `date`, else the 09:00–10:00 all-day entry. -/
def buildEntryRest (tz : Int) (mailboxId emailId subject : String)
    (mi : MeetingAnalysis) (d : String) (y mo0 dd : Option Int) :
    Option TEntry :=
  match mi.endDate with
  | some ed =>
    if ed ≠ "" ∧ ed ≠ d then
      tentativeOf mailboxId emailId subject mi
        (jsLocalOpt tz y mo0 dd (some 0) (some 0))
        (jsLocalOpt tz (splitPart ed '-' 0) ((splitPart ed '-' 1).map (· - 1))
          (splitPart ed '-' 2) (some 23) (some 59)) true
    else buildEntryAllday tz mailboxId emailId subject mi y mo0 dd
  | none => buildEntryAllday tz mailboxId emailId subject mi y mo0 dd

/-- The entry-creation block of `scanEmails` (source lines guarded by
`meetingInfo?.isMeeting && meetingInfo.date`): split the date, then pick
the timed, multi-day or all-day branch. -/
def buildEntry (tz : Int) (mailboxId emailId subject : String)
    (mi : MeetingAnalysis) : Option TEntry :=
  match mi.date with
  | none => none
  | some d =>
    let y := splitPart d '-' 0
    let mo0 := (splitPart d '-' 1).map (· - 1)
    let dd := splitPart d '-' 2
    match mi.time with
    | some t =>
      if t = "" then buildEntryRest tz mailboxId emailId subject mi d y mo0 dd
      else buildEntryTime tz mailboxId emailId subject mi t y mo0 dd
    | none => buildEntryRest tz mailboxId emailId subject mi d y mo0 dd

/-- The regex/extraction outcomes the per-email pipeline consumes:
`dateExtract` is `extractDateFromText(subject + ' ' + snippet,
parsedDate)?.dateStr`; `timeMatch` the time match on the same text;
`subjectDatePattern` whether one of the five self-email date patterns
matches the subject; `subjectDateExtract` is
`extractDateFromText(subject, parsedDate)?.dateStr`. -/
structure EmailRegex where
  dateExtract : Option String
  timeMatch : Option TimeGroups
  subjectDatePattern : Bool
  subjectDateExtract : Option String
deriving DecidableEq

/-- The per-email body of `scanEmails` (Gmail path): the newsletter/spam
filters, heuristic classification, regex date/time extraction with the
no-date discard, the self-email reminder fallback, then entry creation.
Returns the entry persisted for this email, if any. -/
def processEmail (tz : Int) (mailboxEmail mailboxId emailId : String)
    (e : EmailM) (rx : EmailRegex) : Option TEntry :=
  let fromLower := toLowerStr e.fromAddr
  let subjectLower := toLowerStr e.subject
  if isNewsletter fromLower ∨ isSpamSubject subjectLower then none
  else
    let mi1 : Option MeetingAnalysis :=
      match classifyEmailHeuristic e with
      | some mi =>
        let mt := match rx.timeMatch with
          | some tm => extractTime tm
          | none => none
        let mi2 := { mi with date := rx.dateExtract, time := mt }
        if strTruthy mi2.date then some mi2 else none
      | none => none
    let mi3 : Option MeetingAnalysis :=
      match mi1 with
      | some mi => some mi
      | none =>
        if strContains fromLower (toLowerStr mailboxEmail) ∧
            rx.subjectDatePattern then
          some { isMeeting := true, title := some e.subject,
                 date := rx.subjectDateExtract, endDate := none, time := none,
                 duration := none, confidence := some "medium" }
        else none
    match mi3 with
    | some mi =>
      if mi.isMeeting ∧ strTruthy mi.date then
        buildEntry tz mailboxId emailId e.subject mi
      else none
    | none => none

theorem jsOrStr_self (s : String) : jsOrStr (some s) s = s := by
  unfold jsOrStr
  dsimp only
  by_cases h : s = ""
  · rw [if_pos h]
  · rw [if_neg h]

/-- C7 (amended): for every email candidate that is not a self-addressed
email (the lowercased sender does not contain the mailbox address), a
heuristic score below 3 produces no classified meeting and no tentative
entry — and since the scan loop consults no oracle after the heuristic,
this holds regardless of oracle availability; moreover score ≥ 3 is the
only way past `classifyEmailHeuristic`, with confidence `high` at score
≥ 5 and `medium` otherwise.  (A self-addressed email with a date pattern
can still produce an entry below the bar — see the counterexample.) -/
theorem heuristic_bar (tz : Int) (mailboxEmail mailboxId emailId : String)
    (e : EmailM) (rx : EmailRegex)
    (hself : strContains (toLowerStr e.fromAddr) (toLowerStr mailboxEmail) = false)
    (hscore : heuristicScore e < 3) :
    processEmail tz mailboxEmail mailboxId emailId e rx = none ∧
    classifyEmailHeuristic e = none ∧
    (∀ e2 : EmailM, 3 ≤ heuristicScore e2 →
      classifyEmailHeuristic e2 =
        some { isMeeting := true, title := some e2.subject, date := none,
               endDate := none, time := none, duration := none,
               confidence := some
                 (if heuristicScore e2 ≥ 5 then "high" else "medium") }) := by
  have hcl : classifyEmailHeuristic e = none := by
    unfold classifyEmailHeuristic
    rw [if_neg (by omega)]
  refine ⟨?_, hcl, ?_⟩
  · unfold processEmail
    by_cases hn : isNewsletter (toLowerStr e.fromAddr) ∨
        isSpamSubject (toLowerStr e.subject)
    · rw [if_pos hn]
    · rw [if_neg hn]
      dsimp only
      rw [hcl, hself]
      dsimp only
      rw [if_neg (by simp)]
  · intro e2 h2
    unfold classifyEmailHeuristic
    rw [if_pos h2]

/-- A self-addressed reminder email: heuristic score 1 (only the
date-in-subject signal). -/
def c7Email : EmailM :=
  { subject := "Dentist Feb 2", snippet := "", fromAddr := "me@gmail.com",
    signals := { strongHits := List.replicate 19 (false, false),
                 timeInSubject := false, dateInSubject := true,
                 withPerson := false } }

/-- Regex outcomes for `c7Email`: subject "Dentist Feb 2" matches a date
pattern and extracts 2026-02-02. -/
def c7Rx : EmailRegex :=
  { dateExtract := none, timeMatch := none, subjectDatePattern := true,
    subjectDateExtract := some "2026-02-02" }

/-- C7 (counterexample to the unrestricted claim): a self-addressed email
with a date pattern in the subject produces a tentative entry even though
its heuristic score is 1 < 3 — the self-email reminder path of
`scanEmails` bypasses the score bar. -/
theorem heuristic_bar_cex :
    heuristicScore c7Email < 3 ∧
    (processEmail 0 "me@gmail.com" "mb1" "em1" c7Email c7Rx).isSome = true := by
  decide

/-- A non-self email with no signals: score 0. -/
def c7bEmail : EmailM :=
  { subject := "Hello there", snippet := "", fromAddr := "bob@gmail.com",
    signals := { strongHits := List.replicate 19 (false, false),
                 timeInSubject := false, dateInSubject := false,
                 withPerson := false } }

/-- C7 (witness): a non-self email scoring 0 yields no classification and
no entry. -/
theorem heuristic_bar_witness :
    processEmail 0 "me@gmail.com" "mb1" "em1" c7bEmail c7Rx = none ∧
    classifyEmailHeuristic c7bEmail = none :=
  ⟨(heuristic_bar 0 "me@gmail.com" "mb1" "em1" c7bEmail c7Rx (by decide)
      (by decide)).1,
   (heuristic_bar 0 "me@gmail.com" "mb1" "em1" c7bEmail c7Rx (by decide)
      (by decide)).2.1⟩

/-- C4 (amended): when the only extracted time of a classified meeting has
a minute component that is not a multiple of 5, the extraction guard
silently drops the time (`extractTime` returns `none`) — and, a date
having been extracted, the candidate is NOT discarded: an all-day
(09:00–10:00) entry is still persisted for it.  (The `minute % 5 !== 0 →
continue` rejection inside entry creation fires only when the `time` field
is already populated, which the regex extractor never does with such a
minute.) -/
theorem badminute_drops_time_keeps_entry (tz : Int)
    (mailboxEmail mailboxId emailId : String) (e : EmailM) (rx : EmailRegex)
    (tm : TimeGroups) (d : String) (y mo dd : Int)
    (htm : rx.timeMatch = some tm)
    (hmin : tmMinute tm % 5 ≠ 0)
    (hscore : 3 ≤ heuristicScore e)
    (hnews : isNewsletter (toLowerStr e.fromAddr) = false)
    (hspam : isSpamSubject (toLowerStr e.subject) = false)
    (hdate : rx.dateExtract = some d) (hd : d ≠ "")
    (hy : splitPart d '-' 0 = some y)
    (hmo : splitPart d '-' 1 = some mo)
    (hdd : splitPart d '-' 2 = some dd)
    (ht1 : toLowerStr e.subject ≠ "event title")
    (ht2 : strContains e.subject "YYYY" = false) :
    extractTime tm = none ∧
    processEmail tz mailboxEmail mailboxId emailId e rx =
      some { id := "email-" ++ mailboxId ++ "-" ++ emailId,
             mailboxId := mailboxId, title := e.subject,
             startTime := jsLocalMs tz y (mo - 1) dd 9 0 0,
             endTime := jsLocalMs tz y (mo - 1) dd 10 0 0,
             isAllDay := true, status := "tentative", conflicts := [] } := by
  have hext : extractTime tm = none := by
    unfold extractTime
    cases hg : parseIntPfx tm.g1 with
    | none => rfl
    | some h0 =>
      dsimp only
      rw [if_neg]
      rintro ⟨-, -, h5⟩
      exact hmin h5
  refine ⟨hext, ?_⟩
  unfold processEmail
  rw [if_neg (by simp [hnews, hspam])]
  dsimp only
  have hcl : classifyEmailHeuristic e =
      some { isMeeting := true, title := some e.subject, date := none,
             endDate := none, time := none, duration := none,
             confidence := some
               (if heuristicScore e ≥ 5 then "high" else "medium") } := by
    unfold classifyEmailHeuristic
    rw [if_pos hscore]
  rw [hcl, htm, hdate]
  dsimp only
  rw [hext]
  have hdt : strTruthy (some d) = true := by
    unfold strTruthy
    simpa using hd
  rw [if_pos hdt]
  dsimp only
  rw [if_pos ⟨rfl, hdt⟩]
  unfold buildEntry
  dsimp only
  unfold buildEntryRest
  dsimp only
  unfold buildEntryAllday
  rw [hy, hmo, hdd]
  dsimp only [Option.map_some']
  unfold jsLocalOpt
  dsimp only
  unfold tentativeOf
  rw [jsOrStr_self]
  rw [if_neg (by
    rintro (h | h)
    · exact ht1 h
    · rw [ht2] at h
      exact Bool.noConfusion h)]

/-- The spec scenario feed: one all-day event 2026-01-08 .. 2026-01-11. -/
def c5Ics : String :=
  "BEGIN:VCALENDAR\nBEGIN:VEVENT\nUID:ev1\nDTSTART;VALUE=DATE:20260108\nDTEND;VALUE=DATE:20260111\nSUMMARY:Offsite\nEND:VEVENT\nEND:VCALENDAR"

/-- C5 (amended): an email candidate with a date and a distinct end date
becomes an all-day entry spanning 00:00:00 of the start date to 23:59:00
of the end date; an email candidate with only a date (no time) becomes an
all-day entry spanning 09:00 to 10:00 of that date; and the scenario feed
event with date-only start 2026-01-08 and end 2026-01-11 parses to an
entry spanning 2026-01-08T00:00:00 to 2026-01-11T00:00:00 (midnight of
the end date, exactly three days). -/
theorem allday_spans (tz : Int) (mailboxId emailId subject : String)
    (mi1 mi2 : MeetingAnalysis) (d ed : String) (y mo dd ey emo edd : Int)
    (h1 : mi1.date = some d) (h2 : mi1.time = none) (h3 : mi1.endDate = some ed)
    (h4 : ed ≠ "") (h5 : ed ≠ d)
    (hy : splitPart d '-' 0 = some y) (hmo : splitPart d '-' 1 = some mo)
    (hdd : splitPart d '-' 2 = some dd)
    (hey : splitPart ed '-' 0 = some ey) (hemo : splitPart ed '-' 1 = some emo)
    (hedd : splitPart ed '-' 2 = some edd)
    (ht1 : toLowerStr (jsOrStr mi1.title subject) ≠ "event title")
    (ht2 : strContains (jsOrStr mi1.title subject) "YYYY" = false)
    (g1 : mi2.date = some d) (g2 : mi2.time = none) (g3 : mi2.endDate = none)
    (gt1 : toLowerStr (jsOrStr mi2.title subject) ≠ "event title")
    (gt2 : strContains (jsOrStr mi2.title subject) "YYYY" = false) :
    buildEntry tz mailboxId emailId subject mi1 =
      some { id := "email-" ++ mailboxId ++ "-" ++ emailId,
             mailboxId := mailboxId, title := jsOrStr mi1.title subject,
             startTime := jsLocalMs tz y (mo - 1) dd 0 0 0,
             endTime := jsLocalMs tz ey (emo - 1) edd 23 59 0,
             isAllDay := true, status := "tentative", conflicts := [] } ∧
    buildEntry tz mailboxId emailId subject mi2 =
      some { id := "email-" ++ mailboxId ++ "-" ++ emailId,
             mailboxId := mailboxId, title := jsOrStr mi2.title subject,
             startTime := jsLocalMs tz y (mo - 1) dd 9 0 0,
             endTime := jsLocalMs tz y (mo - 1) dd 10 0 0,
             isAllDay := true, status := "tentative", conflicts := [] } ∧
    (parseIcsText 0 (jsDateMs 2026 0 10 0 0 0) (fun _ => 0) c5Ics "mb"
        "cal").map (fun en => (en.startTime, en.endTime)) =
      [(jsDateMs 2026 0 8 0 0 0, jsDateMs 2026 0 11 0 0 0)] := by
  refine ⟨?_, ?_, by decide⟩
  · unfold buildEntry
    rw [h1, h2]
    dsimp only
    unfold buildEntryRest
    rw [h3]
    dsimp only
    rw [if_pos ⟨h4, h5⟩]
    rw [hy, hmo, hdd, hey, hemo, hedd]
    dsimp only [Option.map_some']
    unfold jsLocalOpt
    dsimp only
    unfold tentativeOf
    rw [if_neg (by
      rintro (h | h)
      · exact ht1 h
      · rw [ht2] at h
        exact Bool.noConfusion h)]
  · unfold buildEntry
    rw [g1, g2]
    dsimp only
    unfold buildEntryRest
    rw [g3]
    dsimp only
    unfold buildEntryAllday
    rw [hy, hmo, hdd]
    dsimp only [Option.map_some']
    unfold jsLocalOpt
    dsimp only
    unfold tentativeOf
    rw [if_neg (by
      rintro (h | h)
      · exact gt1 h
      · rw [gt2] at h
        exact Bool.noConfusion h)]

/-- C5 (counterexample): the claim's own scenario fails: the all-day feed
event with start 2026-01-08 and end 2026-01-11 ends at
2026-01-11T00:00:00, which is not 2026-01-11T23:59:59 (the span is
exactly 3 days = 259200000 ms). -/
theorem allday_spans_cex :
    ((parseIcsText 0 (jsDateMs 2026 0 10 0 0 0) (fun _ => 0) c5Ics "mb"
        "cal").map (fun en => (en.startTime, en.endTime)) =
      [(jsDateMs 2026 0 8 0 0 0, jsDateMs 2026 0 11 0 0 0)]) ∧
    jsDateMs 2026 0 11 0 0 0 ≠ jsDateMs 2026 0 11 23 59 59 ∧
    jsDateMs 2026 0 8 0 0 0 + 259200000 = jsDateMs 2026 0 11 0 0 0 := by
  decide

/-- An email whose subject matches the `meeting` strong signal and a date
pattern: score 4. -/
def c4Email : EmailM :=
  { subject := "Meeting Feb 2", snippet := "", fromAddr := "alice@gmail.com",
    signals := { strongHits := (true, false) :: List.replicate 18 (false, false),
                 timeInSubject := false, dateInSubject := true,
                 withPerson := false } }

/-- Regex outcomes for `c4Email`: date 2026-02-02 extracted, and the time
match is 10:07am — minute 7, not a multiple of 5. -/
def c4Rx : EmailRegex :=
  { dateExtract := some "2026-02-02",
    timeMatch := some { g1 := "10", g2 := some "07", g3 := some "am" },
    subjectDatePattern := false, subjectDateExtract := none }

/-- C4 (counterexample): a classified meeting whose only extracted time is
10:07am (minute 7, not a multiple of 5) is not discarded — an all-day
entry is still persisted, contradicting the claim that the entire
candidate is dropped. -/
theorem badminute_cex :
    tmMinute { g1 := "10", g2 := some "07", g3 := some "am" } % 5 ≠ 0 ∧
    (processEmail 0 "me@gmail.com" "mb1" "em1" c4Email c4Rx).map
        TEntry.isAllDay = some true := by
  decide

/-- C4 (witness): at the concrete 10:07am candidate, the time is dropped
and the persisted entry is the 09:00–10:00 all-day one. -/
theorem badminute_witness :
    extractTime { g1 := "10", g2 := some "07", g3 := some "am" } = none ∧
    processEmail 0 "me@gmail.com" "mb1" "em1" c4Email c4Rx =
      some { id := "email-mb1-em1", mailboxId := "mb1",
             title := "Meeting Feb 2",
             startTime := jsLocalMs 0 2026 1 2 9 0 0,
             endTime := jsLocalMs 0 2026 1 2 10 0 0,
             isAllDay := true, status := "tentative", conflicts := [] } :=
  badminute_drops_time_keeps_entry 0 "me@gmail.com" "mb1" "em1" c4Email c4Rx
    { g1 := "10", g2 := some "07", g3 := some "am" } "2026-02-02" 2026 2 2
    (by decide) (by decide) (by decide) (by decide) (by decide) (by decide)
    (by decide) (by decide) (by decide) (by decide) (by decide) (by decide)

/-- A classified multi-day meeting 2026-01-08 .. 2026-01-11. -/
def c5Mi1 : MeetingAnalysis :=
  { isMeeting := true, title := some "Trip", date := some "2026-01-08",
    endDate := some "2026-01-11", time := none, duration := none,
    confidence := some "high" }

/-- A classified date-only meeting on 2026-01-08. -/
def c5Mi2 : MeetingAnalysis :=
  { isMeeting := true, title := some "Trip", date := some "2026-01-08",
    endDate := none, time := none, duration := none,
    confidence := some "high" }

/-- C5 (witness): the amended spans at concrete dates. -/
theorem allday_spans_witness :
    buildEntry 0 "mb1" "em1" "s" c5Mi1 =
      some { id := "email-mb1-em1", mailboxId := "mb1", title := "Trip",
             startTime := jsLocalMs 0 2026 0 8 0 0 0,
             endTime := jsLocalMs 0 2026 0 11 23 59 0,
             isAllDay := true, status := "tentative", conflicts := [] } ∧
    buildEntry 0 "mb1" "em1" "s" c5Mi2 =
      some { id := "email-mb1-em1", mailboxId := "mb1", title := "Trip",
             startTime := jsLocalMs 0 2026 0 8 9 0 0,
             endTime := jsLocalMs 0 2026 0 8 10 0 0,
             isAllDay := true, status := "tentative", conflicts := [] } :=
  ⟨(allday_spans 0 "mb1" "em1" "s" c5Mi1 c5Mi2 "2026-01-08" "2026-01-11"
      2026 1 8 2026 1 11 (by decide) (by decide) (by decide) (by decide)
      (by decide) (by decide) (by decide) (by decide) (by decide) (by decide)
      (by decide) (by decide) (by decide) (by decide) (by decide) (by decide)
      (by decide) (by decide)).1,
   (allday_spans 0 "mb1" "em1" "s" c5Mi1 c5Mi2 "2026-01-08" "2026-01-11"
      2026 1 8 2026 1 11 (by decide) (by decide) (by decide) (by decide)
      (by decide) (by decide) (by decide) (by decide) (by decide) (by decide)
      (by decide) (by decide) (by decide) (by decide) (by decide) (by decide)
      (by decide) (by decide)).2.1⟩
